import Mathlib

/-!
Shallow embedding of the `mine_inference_amber` task of
latch-verified/colabfold (`wf/__init__.py`): input normalization to the
canonical FASTA request, the engine output-stream classifier loop, the
output-directory partitioning, parameter clamping, and the remote
destination formatter.
-/

/-- Characters matched by the compiled whitespace regex (Python `\s`) and
stripped by `str.strip()`; the inputs of interest are ASCII, so the ASCII
whitespace characters are modelled. -/
def isPySpace (c : Char) : Bool :=
  c = ' ' || c = '\t' || c = '\n' || c = '\r' || c = '\x0b' || c = '\x0c'

/-- Python `line.strip()`: remove whitespace from both ends. -/
def pyStrip (s : String) : String :=
  String.mk (((s.data.dropWhile isPySpace).reverse.dropWhile isPySpace).reverse)

/-- `whitespace_regex.sub("", s)`: delete every whitespace character. -/
def cleanAA (s : String) : String :=
  String.mk (s.data.filter (fun c => !isPySpace c))

/-- Membership in `set(string.ascii_lowercase)`, the `allowed` set of the
source. -/
def isAsciiLowerAlpha (c : Char) : Bool :=
  decide ('a' ≤ c) && decide (c ≤ 'z')

/-- The failure modes raised during input normalization (each is a
`ValueError` in the source, preceded by an error message). -/
inductive NormError where
  | invalidAlphabet (offending : List Char)
  | chainTooShort (length : Nat)
  | noInputProvided
  | emptySequences
  deriving DecidableEq

/-- `set(chain.lower()) - allowed`: the offending characters of a chain
after case folding, as a duplicate-free list (modelling the Python set). -/
def badChars (chain : String) : List Char :=
  ((chain.data.map Char.toLower).filter (fun c => !isAsciiLowerAlpha c)).dedup

/-- The per-chain validation shared by both input paths: the alphabet
check (`set(chain.lower()) <= allowed`) first, then the minimum length 16
check, exactly as ordered in the source. -/
def chainError (chain : String) : Option NormError :=
  if badChars chain = [] then
    if chain.length < 16 then some (NormError.chainTooShort chain.length) else none
  else some (NormError.invalidAlphabet (badChars chain))

/-- The `for chain in chains` loop of the FASTA path: the first failing
chain aborts normalization. -/
def firstError : List String → Option NormError
  | [] => none
  | c :: rest =>
    match chainError c with
    | some e => some e
    | none => firstError rest

/-- Python `line.startswith(">")`. -/
def startsWithGt (s : String) : Bool :=
  s.data.head? = some '>'

/-- Helper for `splitChains`, accumulating the current chain reversed. -/
def splitChainsGo : List Char → List Char → List String
  | [], acc => [String.mk acc.reverse]
  | c :: rest, acc =>
    if c = ':' then String.mk acc.reverse :: splitChainsGo rest []
    else splitChainsGo rest (c :: acc)

/-- Python `cleaned_amino_acids.split(":")` (keeps empty segments; the
empty string yields `[""]`). -/
def splitChains (s : String) : List String :=
  splitChainsGo s.data []

/-- The FASTA (`fasta_file`) normalization loop. `out` is the list of
lines already written to `/root/sequence.fasta`: blank lines (post strip)
are skipped, header lines are written verbatim, sequence lines are
whitespace-cleaned, split on `:` and validated per chain before being
written. On a validation failure the loop stops; `out` is what is on disk
at that point. -/
def normFastaGo : List String → List String → List String × Option NormError
  | [], out => (out, none)
  | l :: rest, out =>
    let line := pyStrip l
    if line = "" then normFastaGo rest out
    else if startsWithGt line then normFastaGo rest (out ++ [line])
    else
      let cleaned := cleanAA line
      match firstError (splitChains cleaned) with
      | some e => (out, some e)
      | none => normFastaGo rest (out ++ [cleaned])

/-- Normalization of a FASTA file given as its list of raw lines. -/
def normalizeFasta (lines : List String) : List String × Option NormError :=
  normFastaGo lines []

/-- The structured `AAChain` input record; the source guards
`chain.name is None`, so the name is optional. -/
structure AAChain where
  name : Option String
  amino_acids : String
  deriving DecidableEq

/-- The chain name used in the header: `f"Chain_{i}"` when the name is
absent, the given name otherwise. -/
def chainDisplayName (i : Nat) (c : AAChain) : String :=
  match c.name with
  | none => "Chain_" ++ toString i
  | some n => n

/-- The `for i, chain in enumerate(protein)` loop: accumulate display
names and cleaned residue strings, validating each cleaned chain (whole
string, no `:` split in this path). -/
def buildProtein :
    Nat → List AAChain → List String → List String →
      Except NormError (List String × List String)
  | _, [], names, chains => Except.ok (names, chains)
  | i, c :: rest, names, chains =>
    let cleaned := cleanAA c.amino_acids
    match chainError cleaned with
    | some e => Except.error e
    | none => buildProtein (i + 1) rest (names ++ [chainDisplayName i c]) (chains ++ [cleaned])

/-- One protein of the structured path: names joined with `_` behind `>`,
cleaned chains joined with `:`. -/
def processProtein (p : List AAChain) : Except NormError (String × String) :=
  match buildProtein 0 p [] [] with
  | Except.error e => Except.error e
  | Except.ok (names, chains) =>
    Except.ok (">" ++ String.intercalate "_" names, String.intercalate ":" chains)

/-- The structured (`aa_sequences`) normalization loop; `out` is the list
of lines written so far (two lines per completed protein). -/
def normStructGo : List (List AAChain) → List String → List String × Option NormError
  | [], out => (out, none)
  | p :: rest, out =>
    match processProtein p with
    | Except.error e => (out, some e)
    | Except.ok (h, s) => normStructGo rest (out ++ [h, s])

/-- Normalization of a structured protein list. -/
def normalizeStructured (seqs : List (List AAChain)) : List String × Option NormError :=
  normStructGo seqs []

/-- The input dispatch of `mine_inference_amber`: the FASTA file wins when
present; otherwise the structured list must be present and non-empty. -/
def normalizeInput (fastaFile : Option (List String))
    (aaSequences : Option (List (List AAChain))) : List String × Option NormError :=
  match fastaFile with
  | some lines => normFastaGo lines []
  | none =>
    match aaSequences with
    | none => ([], some NormError.noInputProvided)
    | some [] => ([], some NormError.emptySequences)
    | some seqs => normStructGo seqs []

/-- The typed engine failures raised by the streaming classifier (each is
a `RuntimeError` in the source, preceded by an error message). -/
inductive EngineFailure where
  | resourceExhausted
  | mmseqsApiError
  | msaTemplateError
  | inputFeatureError
  deriving DecidableEq

/-- Whether `pat` is an initial segment of `l`. -/
def listStarts : List Char → List Char → Bool
  | [], _ => true
  | _ :: _, [] => false
  | a :: as, b :: bs => a == b && listStarts as bs

/-- Whether `pat` is a final segment of `l`. -/
def listEnds (pat l : List Char) : Bool :=
  listStarts pat.reverse l.reverse

/-- Whether `pat` occurs contiguously inside `l`. -/
def listHasSub (pat : List Char) : List Char → Bool
  | [] => listStarts pat []
  | c :: rest => listStarts pat (c :: rest) || listHasSub pat rest

/-- Python substring test (`needle in line`). -/
def containsSub (needle line : String) : Bool :=
  listHasSub needle.data line.data

/-- The ordered chain of substring signature checks the loop applies to
each output line, in source order. -/
def classify (line : String) : Option EngineFailure :=
  if containsSub "RESOURCE_EXHAUSTED" line then some EngineFailure.resourceExhausted
  else if containsSub "MMseqs2 API is giving errors" line then some EngineFailure.mmseqsApiError
  else if containsSub "Could not get MSA/templates" line then some EngineFailure.msaTemplateError
  else if containsSub "Could not generate input features" line then
    some EngineFailure.inputFeatureError
  else none

/-- How a run of the read loop ends: a raised typed failure, or stream
exhaustion with the child's exit code (a nonzero code is raised as a
generic `Exception` afterwards; the claims do not concern that branch). -/
inductive Outcome where
  | failed (f : EngineFailure)
  | exited (code : Int)
  deriving DecidableEq

/-- Observable behaviour of one run of the read loop over the merged
output stream: the lines handed to `print` (each `.strip()`-ed), how the
loop ended, how many stream lines were read, and how many times the child
was reaped (a successful `poll()` after exit; the final
`retval = process.poll()` after the loop returns the cached return code
and performs no second wait). -/
structure RunResult where
  forwarded : List String
  outcome : Outcome
  consumed : Nat
  reaps : Nat
  deriving DecidableEq

/-- The `while True` read loop of the source over the list of lines the
child's merged stream yields before EOF, with the child's eventual exit
code. At EOF (`readline` returns `""` and `poll()` is no longer `None`)
the loop breaks having reaped the child once. A line matching a fatal
signature is printed stripped and then the typed failure is raised: no
further line is read and no reap happens on that path. An ordinary line is
printed stripped and the loop continues. -/
def runLoop (exitCode : Int) : List String → RunResult
  | [] => { forwarded := [], outcome := Outcome.exited exitCode, consumed := 0, reaps := 1 }
  | l :: rest =>
    if l = "" then
      let r := runLoop exitCode rest
      { r with consumed := r.consumed + 1 }
    else
      match classify l with
      | some f =>
        { forwarded := [pyStrip l], outcome := Outcome.failed f, consumed := 1, reaps := 0 }
      | none =>
        let r := runLoop exitCode rest
        { forwarded := pyStrip l :: r.forwarded, outcome := r.outcome,
          consumed := r.consumed + 1, reaps := r.reaps }

/-- The name of the primary-artifact subdirectory created by the source
(`cleaned_output_dir / "pdb results"`). -/
def pdbDirName : String := "pdb results"

/-- The name of the auxiliary subdirectory (`cleaned_output_dir / "other"`). -/
def otherDirName : String := "other"

/-- Which entries `local_output.glob("*.pdb")` selects: direct children
(`pathlib.Path.glob` does not recurse for this pattern, and it does match
hidden dot-files) whose name ends in `.pdb`. Paths are relative to the
raw output directory, `/` separated. -/
def isTopLevelPdb (p : String) : Bool :=
  !p.data.contains '/' && listEnds (".pdb").data p.data

/-- The partitioned layout: the files moved into `"pdb results"` and the
files left in the raw tree, which is then moved wholesale to `"other"`
(keeping their relative paths). -/
structure Layout where
  pdbResults : List String
  other : List String
  deriving DecidableEq

/-- The partitioning step of the source: each top-level `*.pdb` file is
moved (not copied) into the `"pdb results"` directory, then the remaining
raw output tree is renamed to `"other"`. -/
def partitionPreds (files : List String) : Layout :=
  { pdbResults := files.filter isTopLevelPdb
  , other := files.filter (fun p => !isTopLevelPdb p) }

/-- `_fmt_dir`: `bucket_path[-1]` raises `IndexError` on the empty string,
modelled as `none`; otherwise one trailing `/` is dropped if present. -/
def fmtDir (bucketPath : String) : Option String :=
  match bucketPath.data.getLast? with
  | none => none
  | some c =>
    if c = '/' then some (String.mk bucketPath.data.dropLast) else some bucketPath

/-- The remote artifact location: `_fmt_dir(output_dir) + "/" + run_name`
for a custom destination, the fixed default namespace otherwise. -/
def latchOutLocation (outputDir : Option String) (runName : String) : Option String :=
  match outputDir with
  | some d => (fmtDir d).map (fun s => s ++ "/" ++ runName)
  | none => some ("latch:///ColabFold Outputs/" ++ runName)

/-- The `nrof_models` clamping of the source: two sequential `if`s, each
emitting one warning message; the second component counts the warnings.
The clamp never raises. -/
def clampModels (n : Int) : Int × Nat :=
  let p := if n < 1 then ((1 : Int), 1) else (n, 0)
  if p.1 > 5 then ((5 : Int), p.2 + 1) else p

/-- The `nrof_recycles` clamping, same shape with bounds 1 and 50. -/
def clampRecycles (n : Int) : Int × Nat :=
  let p := if n < 1 then ((1 : Int), 1) else (n, 0)
  if p.1 > 50 then ((50 : Int), p.2 + 1) else p

/-- The 20 one-letter amino-acid codes, written from the wording of the
specification (for comparison with the source's 26-letter check; this
definition is deliberately NOT taken from the source). -/
def specTwentyLetterCodes : List Char :=
  ['a', 'c', 'd', 'e', 'f', 'g', 'h', 'i', 'k', 'l',
   'm', 'n', 'p', 'q', 'r', 's', 't', 'v', 'w', 'y']

/-- Closed-form description (following the wording of the specification)
of the chain names one protein yields, starting at index `i`: the given
name, or `Chain_{i}` when absent. -/
def specChainNames (i : Nat) : List AAChain → List String
  | [] => []
  | c :: rest => chainDisplayName i c :: specChainNames (i + 1) rest

/-- Closed-form description of the cleaned residue strings one protein
yields: each chain's residues with internal whitespace removed. -/
def specChainSeqs (p : List AAChain) : List String :=
  p.map (fun c => cleanAA c.amino_acids)

/-- Whatever the FASTA loop writes only extends the lines already written:
the accumulator is never truncated or rewritten. -/
theorem normFastaGo_extends (lines : List String) :
    ∀ out, ∃ t, (normFastaGo lines out).1 = out ++ t := by
  induction lines with
  | nil => intro out; exact ⟨[], by simp [normFastaGo]⟩
  | cons l rest ih =>
    intro out
    by_cases h1 : pyStrip l = ""
    · obtain ⟨t, ht⟩ := ih out
      exact ⟨t, by simp [normFastaGo, h1, ht]⟩
    · by_cases h2 : startsWithGt (pyStrip l) = true
      · obtain ⟨t, ht⟩ := ih (out ++ [pyStrip l])
        exact ⟨[pyStrip l] ++ t, by simp [normFastaGo, h1, h2, ht]⟩
      · cases he : firstError (splitChains (cleanAA (pyStrip l))) with
        | some e => exact ⟨[], by simp [normFastaGo, h1, h2, he]⟩
        | none =>
          obtain ⟨t, ht⟩ := ih (out ++ [cleanAA (pyStrip l)])
          exact ⟨[cleanAA (pyStrip l)] ++ t, by simp [normFastaGo, h1, h2, he, ht]⟩

/-- Processing a prefix of the input whose lines all validated leaves its
written lines as the accumulator for the remaining lines. -/
theorem normFastaGo_append_ok (pre : List String) :
    ∀ rest out o, normFastaGo pre out = (o, none) →
      normFastaGo (pre ++ rest) out = normFastaGo rest o := by
  induction pre with
  | nil =>
    intro rest out o h
    simp only [normFastaGo] at h
    obtain ⟨rfl, -⟩ := Prod.mk.injEq .. ▸ And.intro (congrArg Prod.fst h) (congrArg Prod.snd h)
    simp
  | cons l tl ih =>
    intro rest out o h
    simp only [List.cons_append, normFastaGo] at h ⊢
    by_cases h1 : pyStrip l = ""
    · simp only [if_pos h1] at h ⊢
      exact ih rest out o h
    · by_cases h2 : startsWithGt (pyStrip l) = true
      · simp only [if_neg h1, if_pos h2] at h ⊢
        exact ih rest _ o h
      · simp only [if_neg h1, if_neg h2] at h ⊢
        cases he : firstError (splitChains (cleanAA (pyStrip l))) with
        | some e => simp only [he] at h; simp at h
        | none =>
          simp only [he] at h ⊢
          exact ih rest _ o h

/-- Claim C1 counterexample: on a FASTA input whose fourth line is a
too-short chain, normalization fails after having already written the
first record and the second header — a non-empty partial canonical
request remains on disk, contradicting the claim that no partially
written request ever results. -/
theorem c1_counterexample :
    normalizeFasta [">p1", "MTANHLESPNCDWKNNRMAIVHMVNVTPLRM", ">p2", "SHORT"] =
      ([">p1", "MTANHLESPNCDWKNNRMAIVHMVNVTPLRM", ">p2"],
        some (NormError.chainTooShort 5)) ∧
    [">p1", "MTANHLESPNCDWKNNRMAIVHMVNVTPLRM", ">p2"] ≠ ([] : List String) := by
  decide

/-- Claim C1 amended: in the FASTA path validation is interleaved with
serialization, so when a later line fails validation the on-disk request
consists of the lines written for the prefix processed so far, extended by
whatever the failing suffix wrote before the error — a partial canonical
request does result. -/
theorem c1_partial_write (pre rest o : List String) (e : NormError)
    (hpre : normFastaGo pre [] = (o, none))
    (hfail : (normalizeFasta (pre ++ rest)).2 = some e) :
    ∃ t, normalizeFasta (pre ++ rest) = (o ++ t, some e) := by
  unfold normalizeFasta at hfail ⊢
  rw [normFastaGo_append_ok pre rest [] o hpre] at hfail ⊢
  obtain ⟨t, ht⟩ := normFastaGo_extends rest o
  exact ⟨t, by rw [← ht, ← hfail]⟩

/-- Claim C1 witness: the two valid leading lines stay on disk when the
fourth line fails with `chainTooShort`. -/
theorem c1_partial_write_witness :
    ∃ t, normalizeFasta ([">p1", "MTANHLESPNCDWKNNRMAIVHMVNVTPLRM"] ++ [">p2", "SHORT"]) =
      ([">p1", "MTANHLESPNCDWKNNRMAIVHMVNVTPLRM"] ++ t,
        some (NormError.chainTooShort 5)) :=
  c1_partial_write [">p1", "MTANHLESPNCDWKNNRMAIVHMVNVTPLRM"] [">p2", "SHORT"]
    [">p1", "MTANHLESPNCDWKNNRMAIVHMVNVTPLRM"] (NormError.chainTooShort 5)
    (by decide) (by decide)

/-- Successful structured normalization always appends exactly two lines
per protein, so the parity of the line count is preserved. -/
theorem normStructGo_even (seqs : List (List AAChain)) :
    ∀ out, (normStructGo seqs out).2 = none →
      (normStructGo seqs out).1.length % 2 = out.length % 2 := by
  induction seqs with
  | nil => intro out _; simp [normStructGo]
  | cons p rest ih =>
    intro out h
    simp only [normStructGo] at h ⊢
    cases hp : processProtein p with
    | error e => simp only [hp] at h; simp at h
    | ok v =>
      obtain ⟨vh, vs⟩ := v
      simp only [hp] at h ⊢
      have := ih (out ++ [vh, vs]) h
      simpa [Nat.add_mod_right] using this

/-- Claim C2 counterexample: the FASTA path performs no line-count
validation — a one-line request (odd count) and a zero-line request are
both produced without any error, so no `UnpairedLine` or `EmptyInput`
failure exists. -/
theorem c2_counterexample :
    normalizeFasta [">p"] = ([">p"], none) ∧
    ([">p"] : List String).length % 2 = 1 ∧
    normalizeFasta ["   "] = ([], none) := by
  decide

/-- Claim C2 amended: no even/positive line-count check exists. The
structured path rejects a missing or empty protein list with generic
invariant errors (not `EmptyInput`) and, by construction, always writes an
even number of lines on success; the FASTA path writes whatever validated,
including zero- or odd-line requests, with no error. -/
theorem c2_line_count (seqs : List (List AAChain)) :
    normalizeInput none (some []) = ([], some NormError.emptySequences) ∧
    normalizeInput none none = ([], some NormError.noInputProvided) ∧
    ((normalizeStructured seqs).2 = none →
      (normalizeStructured seqs).1.length % 2 = 0) ∧
    normalizeFasta [">p"] = ([">p"], none) ∧
    normalizeFasta ["   "] = ([], none) := by
  refine ⟨rfl, rfl, ?_, by decide, by decide⟩
  intro h
  simpa [normalizeStructured] using normStructGo_even seqs [] h

/-- Claim C2 witness: a one-protein structured input yields an even line
count. -/
theorem c2_line_count_witness :
    (normalizeStructured
      [[AAChain.mk (some "A") "MTANHLESPNCDWKNNRMAIVHMVNVTPLRM"]]).1.length % 2 = 0 :=
  (c2_line_count [[AAChain.mk (some "A") "MTANHLESPNCDWKNNRMAIVHMVNVTPLRM"]]).2.2.1
    (by decide)

/-- Claim C3 counterexample: on a stream with an ordinary progress line
followed by a `RESOURCE_EXHAUSTED` line, the loop raises after reading two
lines but performs zero reaps — the child process is never reaped, not
reaped exactly once as claimed. -/
theorem c3_counterexample :
    runLoop 0 ["progress line\n", "Error: RESOURCE_EXHAUSTED: oom\n", "later line\n"] =
      { forwarded := ["progress line", "Error: RESOURCE_EXHAUSTED: oom"],
        outcome := Outcome.failed EngineFailure.resourceExhausted,
        consumed := 2, reaps := 0 } := by
  decide

/-- Claim C3 amended: the runner raises `ResourceExhausted` immediately on
the matching line (after printing it stripped) and reads no further lines
— but it never reaps the child on that path (zero `poll`/`wait` calls
occur after the raise), leaking the process handle. -/
theorem c3_resource_exhausted (code : Int) (pre l : String) (post : List String)
    (hpre1 : pre ≠ "") (hpre2 : classify pre = none)
    (hl : containsSub "RESOURCE_EXHAUSTED" l = true) :
    runLoop code (pre :: l :: post) =
      { forwarded := [pyStrip pre, pyStrip l],
        outcome := Outcome.failed EngineFailure.resourceExhausted,
        consumed := 2, reaps := 0 } := by
  have hl0 : l ≠ "" := by
    intro h0
    rw [h0] at hl
    exact absurd hl (by decide)
  have hcl : classify l = some EngineFailure.resourceExhausted := by
    unfold classify
    rw [hl]
    rfl
  simp only [runLoop, if_neg hpre1, hpre2, if_neg hl0, hcl]

/-- Claim C3 witness: a concrete two-line stream ending in the fatal
signature. -/
theorem c3_resource_exhausted_witness :
    runLoop 0 ["progress\n", "RESOURCE_EXHAUSTED\n"] =
      { forwarded := [pyStrip "progress\n", pyStrip "RESOURCE_EXHAUSTED\n"],
        outcome := Outcome.failed EngineFailure.resourceExhausted,
        consumed := 2, reaps := 0 } :=
  c3_resource_exhausted 0 "progress\n" "RESOURCE_EXHAUSTED\n" []
    (by decide) (by decide) (by decide)

/-- Claim C6 counterexample: an ordinary line is not forwarded unmodified
— the source prints `realtime_output.strip()`, so surrounding whitespace
(and the newline) is removed before forwarding. -/
theorem c6_counterexample :
    (runLoop 0 ["  hello world  \n"]).forwarded = ["hello world"] ∧
    "hello world" ≠ "  hello world  \n" ∧
    "hello world" ≠ "  hello world  " := by
  decide

/-- Claim C6 amended: every line matching no failure signature is
forwarded in the original stream order, each stripped of leading and
trailing whitespace (Python `str.strip()`), and the loop then ends with
the child's exit code. -/
theorem c6_forwarding (code : Int) (lines : List String)
    (h : ∀ l ∈ lines, l ≠ "" ∧ classify l = none) :
    (runLoop code lines).forwarded = lines.map pyStrip ∧
    (runLoop code lines).outcome = Outcome.exited code := by
  induction lines with
  | nil => simp [runLoop]
  | cons l rest ih =>
    obtain ⟨h1, h2⟩ := h l (List.mem_cons_self l rest)
    have hr := ih (fun x hx => h x (List.mem_cons_of_mem l hx))
    simp only [runLoop, if_neg h1, h2, List.map_cons]
    exact ⟨by rw [hr.1], hr.2⟩

/-- Claim C6 witness: two ordinary lines are forwarded stripped, in
order, and the loop reports the exit code. -/
theorem c6_forwarding_witness :
    (runLoop 7 ["  a line \n", "another\n"]).forwarded =
      ["  a line \n", "another\n"].map pyStrip ∧
    (runLoop 7 ["  a line \n", "another\n"]).outcome = Outcome.exited 7 :=
  c6_forwarding 7 ["  a line \n", "another\n"] (by decide)

/-- Claim C4 counterexample: `O` is not one of the 20 one-letter
amino-acid codes, yet a chain of sixteen `O`s normalizes successfully —
the source checks against all 26 ASCII letters, not the 20-symbol
amino-acid alphabet. -/
theorem c4_counterexample :
    normalizeFasta ["OOOOOOOOOOOOOOOO"] = (["OOOOOOOOOOOOOOOO"], none) ∧
    'o' ∉ specTwentyLetterCodes ∧ Char.toLower 'O' = 'o' := by
  decide

/-- Claim C4 amended: the enforced alphabet is the 26 lowercase ASCII
letters after case folding — a chain containing any character that does
not case-fold into `a`-`z` fails with `invalidAlphabet`, while a chain of
at least 16 letters passes even when its letters (such as `B,J,O,U,X,Z`)
lie outside the 20 amino-acid codes. -/
theorem c4_alphabet (chain : String) :
    ((∃ c ∈ chain.data, isAsciiLowerAlpha (Char.toLower c) = false) →
      ∃ bad, chainError chain = some (NormError.invalidAlphabet bad)) ∧
    ((∀ c ∈ chain.data, isAsciiLowerAlpha (Char.toLower c) = true) →
      ¬ chain.length < 16 → chainError chain = none) := by
  constructor
  · rintro ⟨c, hc, hf⟩
    have hmem : Char.toLower c ∈ (chain.data.map Char.toLower).filter
        (fun x => !isAsciiLowerAlpha x) :=
      List.mem_filter.mpr ⟨List.mem_map_of_mem Char.toLower hc, by simp [hf]⟩
    have hne : badChars chain ≠ [] :=
      List.ne_nil_of_mem (List.mem_dedup.mpr hmem)
    refine ⟨badChars chain, ?_⟩
    unfold chainError
    rw [if_neg hne]
  · intro hall hlen
    have hfe : (chain.data.map Char.toLower).filter (fun x => !isAsciiLowerAlpha x) = [] := by
      rw [List.filter_eq_nil_iff]
      intro a ha
      obtain ⟨b, hb, rfl⟩ := List.mem_map.mp ha
      simp [hall b hb]
    unfold chainError badChars
    rw [hfe]
    simp [hlen]

/-- Claim C4 witness: a chain with a digit fails the alphabet check; a
chain of sixteen `O`s passes validation. -/
theorem c4_alphabet_witness :
    (∃ bad, chainError "MTANHLE1SPNCDWKNNR" = some (NormError.invalidAlphabet bad)) ∧
    chainError "OOOOOOOOOOOOOOOO" = none :=
  ⟨(c4_alphabet "MTANHLE1SPNCDWKNNR").1 ⟨'1', by decide, by decide⟩,
    (c4_alphabet "OOOOOOOOOOOOOOOO").2 (by decide) (by decide)⟩

/-- Claim C5 counterexample: partitioning the raw directory
`{a.pdb, b.pdb, log.txt}` does move the coordinate files apart from
`log.txt`, but the subdirectory that receives them is named
`"pdb results"`, not `results` as the claim states. -/
theorem c5_counterexample :
    partitionPreds ["a.pdb", "b.pdb", "log.txt"] =
      { pdbResults := ["a.pdb", "b.pdb"], other := ["log.txt"] } ∧
    pdbDirName ≠ "results" := by
  decide

/-- Claim C5 amended: every raw file ends up in exactly one of the two
subtrees (no loss, no duplication): the top-level `*.pdb` files go to the
subdirectory named `"pdb results"` (not `results`), everything else —
including `.pdb` files in nested directories, since the glob does not
recurse — stays in the tree that is renamed to `"other"`. -/
theorem c5_partition (files : List String) :
    ((partitionPreds files).pdbResults ++ (partitionPreds files).other).Perm files ∧
    (∀ p ∈ (partitionPreds files).pdbResults, isTopLevelPdb p = true) ∧
    (∀ p ∈ (partitionPreds files).other, isTopLevelPdb p = false) ∧
    pdbDirName = "pdb results" ∧ otherDirName = "other" ∧
    partitionPreds ["sub/c.pdb"] = { pdbResults := [], other := ["sub/c.pdb"] } := by
  refine ⟨List.filter_append_perm isTopLevelPdb files, ?_, ?_, rfl, rfl, by decide⟩
  · intro p hp
    exact (List.mem_filter.mp hp).2
  · intro p hp
    simpa using (List.mem_filter.mp hp).2

/-- Claim C5 witness: the two-subtree split at a concrete directory, with
the membership facts evaluated. -/
theorem c5_partition_witness :
    ((partitionPreds ["a.pdb", "log.txt"]).pdbResults ++
      (partitionPreds ["a.pdb", "log.txt"]).other).Perm ["a.pdb", "log.txt"] ∧
    isTopLevelPdb "a.pdb" = true ∧ isTopLevelPdb "log.txt" = false :=
  ⟨(c5_partition ["a.pdb", "log.txt"]).1,
    (c5_partition ["a.pdb", "log.txt"]).2.1 "a.pdb" (by decide),
    (c5_partition ["a.pdb", "log.txt"]).2.2.1 "log.txt" (by decide)⟩

/-- Structured protein assembly, on a protein all of whose chains
validate, produces exactly the accumulated display names and cleaned
chains. -/
theorem buildProtein_ok (p : List AAChain) :
    ∀ i names chains, (∀ c ∈ p, chainError (cleanAA c.amino_acids) = none) →
      buildProtein i p names chains =
        Except.ok (names ++ specChainNames i p, chains ++ specChainSeqs p) := by
  induction p with
  | nil =>
    intro i names chains _
    simp [buildProtein, specChainNames, specChainSeqs]
  | cons c rest ih =>
    intro i names chains h
    have hc := h c (List.mem_cons_self c rest)
    simp only [buildProtein, hc]
    rw [ih (i + 1) _ _ (fun x hx => h x (List.mem_cons_of_mem c hx))]
    simp [specChainNames, specChainSeqs, List.append_assoc]

/-- Claim C7 (confirmed): a structured protein whose chains all validate
normalizes to the header `>` + names joined by `_` (with `Chain_{i}`
substituted for missing names, 0-indexed) and the sequence line of
whitespace-cleaned chains joined by `:`; in particular the `A`/`B`
multimer of the claim yields `>A_B` and the colon-joined residues. -/
theorem c7_structured_format (p : List AAChain)
    (h : ∀ c ∈ p, chainError (cleanAA c.amino_acids) = none) :
    processProtein p =
      Except.ok (">" ++ String.intercalate "_" (specChainNames 0 p),
        String.intercalate ":" (specChainSeqs p)) ∧
    processProtein
      [⟨some "A", "MTANHLESPNCDWKNNRMAIVHMVNVTPLRM"⟩,
       ⟨some "B", "CDWKNNENPDEAMTANHLESPNCDWKNNRMA"⟩] =
      Except.ok (">A_B",
        "MTANHLESPNCDWKNNRMAIVHMVNVTPLRM:CDWKNNENPDEAMTANHLESPNCDWKNNRMA") := by
  constructor
  · unfold processProtein
    rw [buildProtein_ok p 0 [] [] h]
    simp
  · rfl

/-- Claim C7 witness: the concrete `A`/`B` multimer of the claim. -/
theorem c7_structured_format_witness :
    processProtein
      [⟨some "A", "MTANHLESPNCDWKNNRMAIVHMVNVTPLRM"⟩,
       ⟨some "B", "CDWKNNENPDEAMTANHLESPNCDWKNNRMA"⟩] =
      Except.ok (">A_B",
        "MTANHLESPNCDWKNNRMAIVHMVNVTPLRM:CDWKNNENPDEAMTANHLESPNCDWKNNRMA") :=
  (c7_structured_format
    [⟨some "A", "MTANHLESPNCDWKNNRMAIVHMVNVTPLRM"⟩,
     ⟨some "B", "CDWKNNENPDEAMTANHLESPNCDWKNNRMA"⟩] (by decide)).2

/-- Claim C8 counterexample: the only text-handling path (the FASTA file
path) silently repairs an untagged line containing an internal space —
the space is stripped and the line accepted as a sequence line, with no
synthesized `sequence_0` header and no `AmbiguousSpacing` failure. -/
theorem c8_counterexample :
    normalizeFasta ["aaaaaaaa aaaaaaaa"] = (["aaaaaaaaaaaaaaaa"], none) := by
  decide

/-- Claim C8 amended: the task accepts exactly two raw-input variants, a
FASTA file and a structured protein list — there is no `TextBlock`
variant. When both are absent the task fails with its invariant error; an
untagged non-blank line in the file path is written as a sequence line
with all whitespace removed, never rejected for spacing and never given a
synthesized header. -/
theorem c8_no_textblock (l : String)
    (h1 : pyStrip l ≠ "") (h2 : ¬ startsWithGt (pyStrip l) = true)
    (h3 : firstError (splitChains (cleanAA (pyStrip l))) = none) :
    normalizeFasta [l] = ([cleanAA (pyStrip l)], none) ∧
    normalizeInput none none = ([], some NormError.noInputProvided) := by
  refine ⟨?_, rfl⟩
  unfold normalizeFasta
  simp only [normFastaGo, if_neg h1, if_neg h2, h3]
  simp [normFastaGo]

/-- Claim C8 witness: an untagged line with three internal spaces is
accepted with the spaces removed. -/
theorem c8_no_textblock_witness :
    normalizeFasta ["aaaa aaaa aaaa aaaa"] =
      ([cleanAA (pyStrip "aaaa aaaa aaaa aaaa")], none) ∧
    normalizeInput none none = ([], some NormError.noInputProvided) :=
  c8_no_textblock "aaaa aaaa aaaa aaaa" (by decide) (by decide) (by decide)

/-- Closed form of the `nrof_models` clamp. -/
theorem clampModels_eq (n : Int) :
    clampModels n = if n < 1 then ((1 : Int), 1) else if 5 < n then ((5 : Int), 1) else (n, 0) := by
  unfold clampModels
  by_cases h1 : n < 1
  · simp [h1]
  · simp [h1, gt_iff_lt]

/-- Closed form of the `nrof_recycles` clamp. -/
theorem clampRecycles_eq (n : Int) :
    clampRecycles n =
      if n < 1 then ((1 : Int), 1) else if 50 < n then ((50 : Int), 1) else (n, 0) := by
  unfold clampRecycles
  by_cases h1 : n < 1
  · simp [h1]
  · simp [h1, gt_iff_lt]

/-- Claim C9 (confirmed): a model count below 1 is clamped to 1 and above
5 to 5; a recycle count below 1 is clamped to 1 and above 50 to 50; each
clamp emits exactly one warning and the clamps are total functions (no
error path exists); warnings occur exactly when the input is out of
range; inputs 0 and 100 yield 1 and 5 for the model count and 1 and 50
for the recycle count. -/
theorem c9_clamping (n : Int) :
    (n < 1 → clampModels n = (1, 1) ∧ clampRecycles n = (1, 1)) ∧
    (5 < n → clampModels n = (5, 1)) ∧
    (50 < n → clampRecycles n = (50, 1)) ∧
    (1 ≤ (clampModels n).1 ∧ (clampModels n).1 ≤ 5) ∧
    (1 ≤ (clampRecycles n).1 ∧ (clampRecycles n).1 ≤ 50) ∧
    ((clampModels n).2 = 0 ↔ 1 ≤ n ∧ n ≤ 5) ∧
    ((clampRecycles n).2 = 0 ↔ 1 ≤ n ∧ n ≤ 50) ∧
    clampModels 0 = (1, 1) ∧ clampModels 100 = (5, 1) ∧
    clampRecycles 0 = (1, 1) ∧ clampRecycles 100 = (50, 1) := by
  have hm := clampModels_eq n
  have hr := clampRecycles_eq n
  refine ⟨?_, ?_, ?_, ?_, ?_, ?_, ?_, by decide, by decide, by decide, by decide⟩
  · intro h
    rw [hm, hr]
    simp [h]
  · intro h
    have h1 : ¬ n < 1 := by omega
    rw [hm]
    simp [h1, h]
  · intro h
    have h1 : ¬ n < 1 := by omega
    rw [hr]
    simp [h1, h]
  · rw [hm]
    split_ifs <;> constructor <;> simp <;> omega
  · rw [hr]
    split_ifs <;> constructor <;> simp <;> omega
  · rw [hm]
    split_ifs <;> simp <;> omega
  · rw [hr]
    split_ifs <;> simp <;> omega

/-- Claim C9 witness: the clamps at the claim's inputs 0 and 100. -/
theorem c9_clamping_witness :
    (clampModels 0 = (1, 1) ∧ clampRecycles 0 = (1, 1)) ∧
    clampModels 100 = (5, 1) ∧ clampRecycles 100 = (50, 1) :=
  ⟨(c9_clamping 0).1 (by decide),
    (c9_clamping 100).2.1 (by decide),
    (c9_clamping 100).2.2.1 (by decide)⟩

/-- Claim C10 (confirmed): for a non-empty custom destination the final
remote path is the destination with exactly one trailing `/` removed when
present, then `/` and the run name appended; for the empty destination the
formatter's last-character index is out of range and the computation
fails (returns no path). -/
theorem c10_custom_destination (d runName : String) :
    (d ≠ "" →
      latchOutLocation (some d) runName =
        some ((if d.data.getLast? = some '/' then String.mk d.data.dropLast else d) ++
          "/" ++ runName)) ∧
    latchOutLocation (some "") runName = none := by
  constructor
  · intro hd
    unfold latchOutLocation fmtDir
    cases hc : d.data.getLast? with
    | none =>
      exfalso
      apply hd
      have hnil : d.data = [] := List.getLast?_eq_none_iff.mp hc
      cases d with
      | mk l => simp at hnil; simp [hnil]
    | some c =>
      by_cases h : c = '/'
      · subst h
        simp [hc]
      · simp [hc, h]
  · rfl

/-- Claim C10 witness: a destination with a trailing slash, and the empty
destination. -/
theorem c10_custom_destination_witness :
    latchOutLocation (some "bucket/") "run1" =
      some ((if ("bucket/").data.getLast? = some '/' then
        String.mk ("bucket/").data.dropLast else "bucket/") ++ "/" ++ "run1") ∧
    latchOutLocation (some "") "run1" = none :=
  ⟨(c10_custom_destination "bucket/" "run1").1 (by decide),
    (c10_custom_destination "bucket/" "run1").2⟩
